import Mathlib

/-!
Shallow embedding of src/atintegrators/StrMPoleSymplectic4Pass.c.

Doubles are modelled as exact rationals extended with a not-a-number value
(`D`): NaN propagates through arithmetic and makes every comparison false,
as in IEEE-754.  Infinities are not modelled; the only division that could
produce one (delta = -1) is mapped to NaN, which the spec treats the same
way (a non-finite coordinate manifesting as loss downstream).

The element parameter record mirrors `struct elem` of the source; optional
pointer fields become `Option` values.  The low-level primitives included
from files that are not part of src/ (driftkick.c, quadfringe.c, the
aperture and misalignment helpers) are modelled from the spec where the
spec fixes their contract, and the four fringe-field maps - whose formulas
the spec deliberately leaves external - are parameters of the embedding
(`FringeModels`).

Each per-particle run also produces a trace of stage events (`Ev`), used to
state ordering and which-stage-ran properties that the final state alone
cannot express.
-/

namespace AT

/-- A double: either NaN or an exact rational value. -/
inductive D where
  | nan : D
  | v : ℚ → D
deriving DecidableEq, Repr

/-- NaN-propagating addition. -/
def D.add : D → D → D
  | D.v a, D.v b => D.v (a + b)
  | _, _ => D.nan

/-- NaN-propagating subtraction. -/
def D.sub : D → D → D
  | D.v a, D.v b => D.v (a - b)
  | _, _ => D.nan

/-- NaN-propagating multiplication. -/
def D.mul : D → D → D
  | D.v a, D.v b => D.v (a * b)
  | _, _ => D.nan

/-- NaN-propagating division; division by zero is collapsed to NaN
(IEEE would give an infinity, which this model does not distinguish). -/
def D.div : D → D → D
  | D.v a, D.v b => if b = 0 then D.nan else D.v (a / b)
  | _, _ => D.nan

instance : Add D := ⟨D.add⟩

instance : Sub D := ⟨D.sub⟩

instance : Mul D := ⟨D.mul⟩

instance : Div D := ⟨D.div⟩

/-- Strict less-than; false whenever either operand is NaN, as in IEEE. -/
def D.lt : D → D → Bool
  | D.v a, D.v b => decide (a < b)
  | _, _ => false

/-- The atIsNaN test of the source. -/
def D.isNaN : D → Bool
  | D.nan => true
  | D.v _ => false

/-- One particle: the six phase-space coordinates r6[0..5] =
(x, px, y, py, delta, ct). -/
structure P6 where
  x : D
  px : D
  y : D
  py : D
  dp : D
  ct : D
deriving DecidableEq, Repr

/-- The all-zero particle, used as a default value. -/
def P6.zero : P6 :=
  ⟨D.v 0, D.v 0, D.v 0, D.v 0, D.v 0, D.v 0⟩

instance : Inhabited P6 := ⟨P6.zero⟩

/-- Coordinate read by index, matching the C indexing r6[i]. -/
def P6.coord (s : P6) : ℕ → D
  | 0 => s.x
  | 1 => s.px
  | 2 => s.y
  | 3 => s.py
  | 4 => s.dp
  | _ => s.ct

/-- Modelled from the spec: atlalib.c is not under src/.  Section 6 gives
the applyShift contract for ATaddvv: add the 6-entry offset vector to the
state. -/
def ATaddvv (s : P6) (t : List ℚ) : P6 :=
  { x := s.x + D.v (t.getD 0 0)
    px := s.px + D.v (t.getD 1 0)
    y := s.y + D.v (t.getD 2 0)
    py := s.py + D.v (t.getD 3 0)
    dp := s.dp + D.v (t.getD 4 0)
    ct := s.ct + D.v (t.getD 5 0) }

/-- Row i of a row-major 6x6 matrix times the state vector. -/
def dotRow (m : List ℚ) (i : ℕ) (s : P6) : D :=
  D.v (m.getD (6 * i) 0) * s.x + D.v (m.getD (6 * i + 1) 0) * s.px +
    D.v (m.getD (6 * i + 2) 0) * s.y + D.v (m.getD (6 * i + 3) 0) * s.py +
    D.v (m.getD (6 * i + 4) 0) * s.dp + D.v (m.getD (6 * i + 5) 0) * s.ct

/-- Modelled from the spec: atlalib.c is not under src/.  Section 6 gives
the applyTransform contract for ATmultmv: multiply the state by a 6x6
matrix (row-major). -/
def ATmultmv (s : P6) (m : List ℚ) : P6 :=
  { x := dotRow m 0 s
    px := dotRow m 1 s
    y := dotRow m 2 s
    py := dotRow m 3 s
    dp := dotRow m 4 s
    ct := dotRow m 5 s }

/-- Modelled from the spec: the aperture helpers are not under src/.
Section 6: test the transverse position (x, y) against the limit vector
[xmin, xmax, ymin, ymax]; on violation mark the state lost by setting the
designated sentinel coordinate, x (the coordinate the pass itself tests
with atIsNaN), to NaN.  NaN coordinates compare false, so an already-lost
state is left as it is. -/
def checkiflostRectangularAp (s : P6) (lim : List ℚ) : P6 :=
  if s.x.lt (D.v (lim.getD 0 0)) || (D.v (lim.getD 1 0)).lt s.x ||
      s.y.lt (D.v (lim.getD 2 0)) || (D.v (lim.getD 3 0)).lt s.y then
    { s with x := D.nan }
  else s

/-- Modelled from the spec: the aperture helpers are not under src/.
Section 6: elliptical membership test against semi-axes taken from the
limit vector; the state is lost when (x/a)^2 + (y/b)^2 exceeds 1, marked
by setting x to NaN. -/
def checkiflostEllipticalAp (s : P6) (lim : List ℚ) : P6 :=
  let xn := s.x / D.v (lim.getD 0 0)
  let yn := s.y / D.v (lim.getD 1 0)
  if (D.v 1).lt (xn * xn + yn * yn) then { s with x := D.nan } else s

/-- Modelled from the spec: driftkick.c is not under src/.  Section 6
drift contract: advance the transverse positions by the (already
momentum-normalized) length times the transverse momenta. -/
def fastdrift (s : P6) (normL : D) : P6 :=
  { s with x := s.x + normL * s.px, y := s.y + normL * s.py }

/-- Complex multiplication on pairs of D values. -/
def cmulD (p q : D × D) : D × D :=
  (p.1 * q.1 - p.2 * q.2, p.1 * q.2 + p.2 * q.1)

/-- Complex power (x + i y)^n. -/
def cpowD (p : D × D) : ℕ → D × D
  | 0 => (D.v 1, D.v 0)
  | n + 1 => cmulD p (cpowD p n)

/-- Complex field polynomial sum_j (B j + i A j) (x + i y)^j for
j = 0..maxOrder. -/
def fieldPoly (A B : List ℚ) (maxOrder : ℕ) (x y : D) : D × D :=
  ((List.range (maxOrder + 1)).map fun j =>
      cmulD (D.v (B.getD j 0), D.v (A.getD j 0)) (cpowD (x, y) j)).foldl
    (fun p q => (p.1 + q.1, p.2 + q.2)) (D.v 0, D.v 0)

/-- Modelled from the spec: driftkick.c is not under src/.  Section 6
multipoleThinKick contract: evaluate the complex multipole field
polynomial over PolynomA/PolynomB up to MaxOrder at (x, y) and apply an
instantaneous momentum kick scaled by the strength. -/
def strthinkick (s : P6) (A B : List ℚ) (K : ℚ) (maxOrder : ℕ) : P6 :=
  let f := fieldPoly A B maxOrder s.x s.y
  { s with px := s.px - D.v K * f.1, py := s.py + D.v K * f.2 }

/-- Modelled from the spec: quadfringe.c is not under src/, and sections 1
and 6 treat the four fringe-field maps as external primitives - pure
functions of the state, the quadrupole strength B[1] and, for the
linear-integral model, the two 5-entry integral vectors - without fixing
their formulas.  The embedding is therefore parameterized over them. -/
structure FringeModels where
  quadFringePassP : P6 → ℚ → P6
  quadFringePassN : P6 → ℚ → P6
  linearEntrance : P6 → ℚ → List ℚ → List ℚ → P6
  linearExit : P6 → ℚ → List ℚ → List ℚ → P6

/-- A concrete instantiation of the external fringe maps (each the
identity on the state), used to evaluate closed statements. -/
def trivFringe : FringeModels :=
  ⟨fun s _ => s, fun s _ => s, fun s _ _ _ => s, fun s _ _ _ => s⟩

/-- The element parameter record, mirroring struct elem of the source. -/
structure Elem where
  Length : ℚ
  PolynomA : List ℚ
  PolynomB : List ℚ
  MaxOrder : ℕ
  NumIntSteps : ℕ
  FringeQuadEntrance : ℕ
  FringeQuadExit : ℕ
  fringeIntM0 : Option (List ℚ)
  fringeIntP0 : Option (List ℚ)
  T1 : Option (List ℚ)
  T2 : Option (List ℚ)
  R1 : Option (List ℚ)
  R2 : Option (List ℚ)
  RApertures : Option (List ℚ)
  EApertures : Option (List ℚ)

/-- Stage events recorded by the traced pass, one per primitive call made
by the per-particle pipeline.  readB1 records the evaluation of the
B[1] != 0 test (reached, by &&-short-circuit, exactly when the fringe mode
flag is nonzero). -/
inductive Ev where
  | addShift : Ev
  | multMat : Ev
  | rectAp : Ev
  | ellipAp : Ev
  | readB1 : Ev
  | fringeLinEnt : Ev
  | fringeHardEnt : Ev
  | fringeLinExit : Ev
  | fringeHardExit : Ev
  | drift : D → Ev
  | kick : ℚ → Ev
deriving DecidableEq, Repr

/-- Sequencing of traced stages: run the second stage on the first one's
state and append the traces. -/
def step (p : P6 × List Ev) (f : P6 → P6 × List Ev) : P6 × List Ev :=
  ((f p.1).1, p.2 ++ (f p.1).2)

/-- Entrance translation (if T1) ATaddvv(r6,T1). -/
def stT1 (E : Elem) (s : P6) : P6 × List Ev :=
  match E.T1 with
  | some t => (ATaddvv s t, [Ev.addShift])
  | none => (s, [])

/-- Entrance rotation (if R1) ATmultmv(r6,R1). -/
def stR1 (E : Elem) (s : P6) : P6 × List Ev :=
  match E.R1 with
  | some m => (ATmultmv s m, [Ev.multMat])
  | none => (s, [])

/-- Exit rotation (if R2) ATmultmv(r6,R2). -/
def stR2 (E : Elem) (s : P6) : P6 × List Ev :=
  match E.R2 with
  | some m => (ATmultmv s m, [Ev.multMat])
  | none => (s, [])

/-- Exit translation (if T2) ATaddvv(r6,T2). -/
def stT2 (E : Elem) (s : P6) : P6 × List Ev :=
  match E.T2 with
  | some t => (ATaddvv s t, [Ev.addShift])
  | none => (s, [])

/-- Rectangular aperture check (if RApertures). -/
def stRect (E : Elem) (s : P6) : P6 × List Ev :=
  match E.RApertures with
  | some a => (checkiflostRectangularAp s a, [Ev.rectAp])
  | none => (s, [])

/-- Elliptical aperture check (if EApertures). -/
def stEllip (E : Elem) (s : P6) : P6 × List Ev :=
  match E.EApertures with
  | some a => (checkiflostEllipticalAp s a, [Ev.ellipAp])
  | none => (s, [])

/-- Entrance fringe: if (FringeQuadEntrance && B[1] != 0) apply the
linear-integral model when useLin holds, else the hard-edge model. -/
def stFringeEnt (fr : FringeModels) (E : Elem) (useLin : Bool) (s : P6) :
    P6 × List Ev :=
  if E.FringeQuadEntrance = 0 then (s, [])
  else if E.PolynomB.getD 1 0 = 0 then (s, [Ev.readB1])
  else if useLin then
    (fr.linearEntrance s (E.PolynomB.getD 1 0) (E.fringeIntM0.getD [])
        (E.fringeIntP0.getD []),
      [Ev.readB1, Ev.fringeLinEnt])
  else (fr.quadFringePassP s (E.PolynomB.getD 1 0), [Ev.readB1, Ev.fringeHardEnt])

/-- Exit fringe: if (FringeQuadExit && B[1] != 0) apply the
linear-integral model when useLin holds, else the hard-edge model. -/
def stFringeExit (fr : FringeModels) (E : Elem) (useLin : Bool) (s : P6) :
    P6 × List Ev :=
  if E.FringeQuadExit = 0 then (s, [])
  else if E.PolynomB.getD 1 0 = 0 then (s, [Ev.readB1])
  else if useLin then
    (fr.linearExit s (E.PolynomB.getD 1 0) (E.fringeIntM0.getD [])
        (E.fringeIntP0.getD []),
      [Ev.readB1, Ev.fringeLinExit])
  else (fr.quadFringePassN s (E.PolynomB.getD 1 0), [Ev.readB1, Ev.fringeHardExit])

/-- One integration slice, exactly as the body of the slice loop: the
normalization is recomputed from the current delta, then the four drifts
and three kicks are applied in the order of the source. -/
def sliceOnce (A B : List ℚ) (maxOrder : ℕ) (L1 L2 K1 K2 : ℚ) (s : P6) :
    P6 × List Ev :=
  let norm := D.v 1 / (D.v 1 + s.dp)
  let NormL1 := D.v L1 * norm
  let NormL2 := D.v L2 * norm
  let s1 := fastdrift s NormL1
  let s2 := strthinkick s1 A B K1 maxOrder
  let s3 := fastdrift s2 NormL2
  let s4 := strthinkick s3 A B K2 maxOrder
  let s5 := fastdrift s4 NormL2
  let s6 := strthinkick s5 A B K1 maxOrder
  let s7 := fastdrift s6 NormL1
  (s7, [Ev.drift NormL1, Ev.kick K1, Ev.drift NormL2, Ev.kick K2,
    Ev.drift NormL2, Ev.kick K1, Ev.drift NormL1])

/-- The slice loop: for (m = 0; m < n; m++) run one slice. -/
def integrateSlices (A B : List ℚ) (maxOrder : ℕ) (L1 L2 K1 K2 : ℚ) :
    ℕ → P6 → P6 × List Ev
  | 0, s => (s, [])
  | n + 1, s =>
    let first := sliceOnce A B maxOrder L1 L2 K1 K2 s
    let rest := integrateSlices A B maxOrder L1 L2 K1 K2 n first.1
    (rest.1, first.2 ++ rest.2)

/-- Entrance section: T1, R1, rectangular aperture, elliptical aperture,
entrance fringe, in the order of the source. -/
def entranceSection (fr : FringeModels) (E : Elem) (useLin : Bool) (s : P6) :
    P6 × List Ev :=
  step (step (step (step (stT1 E s) (stR1 E)) (stRect E)) (stEllip E))
    (stFringeEnt fr E useLin)

/-- Exit section: exit fringe, rectangular aperture, elliptical aperture,
R2, T2, in the order of the source. -/
def exitSection (fr : FringeModels) (E : Elem) (useLin : Bool) (s : P6) :
    P6 × List Ev :=
  step (step (step (step (stFringeExit fr E useLin s) (stRect E)) (stEllip E))
      (stR2 E))
    (stT2 E)

/-- The guarded-out body of the particle loop. -/
def pipelineBody (fr : FringeModels) (E : Elem) (u1 u2 : Bool)
    (L1 L2 K1 K2 : ℚ) (s : P6) : P6 × List Ev :=
  step (step (entranceSection fr E u1 s)
      (integrateSlices E.PolynomA E.PolynomB E.MaxOrder L1 L2 K1 K2
        E.NumIntSteps))
    (exitSection fr E u2)

/-- One iteration of the particle loop: everything is skipped when the
particle already carries the NaN sentinel in coordinate 0. -/
def particlePass (fr : FringeModels) (E : Elem) (u1 u2 : Bool)
    (L1 L2 K1 K2 : ℚ) (r6 : P6) : P6 × List Ev :=
  if r6.x.isNaN then (r6, []) else pipelineBody fr E u1 u2 L1 L2 K1 K2 r6

/-- DRIFT1 of the source, as an exact rational. -/
def DRIFT1 : ℚ := 0.6756035959798286638

/-- DRIFT2 of the source, as an exact rational. -/
def DRIFT2 : ℚ := -0.1756035959798286639

/-- KICK1 of the source, as an exact rational. -/
def KICK1 : ℚ := 1.351207191959657328

/-- KICK2 of the source, as an exact rational. -/
def KICK2 : ℚ := -1.702414383919314656

/-- The traced pass: the linear-fringe selectors and the four step
coefficients are computed once, before the particle loop, then every
particle is run through the pipeline. -/
def StrMPoleSymplectic4PassTr (fr : FringeModels) (E : Elem)
    (rs : List P6) : List (P6 × List Ev) :=
  let useLinFrEleEntrance :=
    E.fringeIntM0.isSome && E.fringeIntP0.isSome &&
      decide (E.FringeQuadEntrance = 2)
  let useLinFrEleExit :=
    E.fringeIntM0.isSome && E.fringeIntP0.isSome &&
      decide (E.FringeQuadExit = 2)
  let SL := E.Length / (E.NumIntSteps : ℚ)
  let L1 := SL * DRIFT1
  let L2 := SL * DRIFT2
  let K1 := SL * KICK1
  let K2 := SL * KICK2
  rs.map (particlePass fr E useLinFrEleEntrance useLinFrEleExit L1 L2 K1 K2)

/-- The pass itself: the traced pass with the traces dropped. -/
def StrMPoleSymplectic4Pass (fr : FringeModels) (E : Elem) (rs : List P6) :
    List P6 :=
  (StrMPoleSymplectic4PassTr fr E rs).map Prod.fst

/-- Single-particle run of the traced pass. -/
def passOneTr (fr : FringeModels) (E : Elem) (s : P6) : P6 × List Ev :=
  (StrMPoleSymplectic4PassTr fr E [s]).getD 0 (P6.zero, [])

/-- Single-particle run of the pass. -/
def passOne (fr : FringeModels) (E : Elem) (s : P6) : P6 :=
  (passOneTr fr E s).1

/-- The integration slice exactly as the spec words it: with
norm = 1/(1 + delta) taken from the current delta at the start of the
slice, apply drift(L1 norm), kick(K1), drift(L2 norm), kick(K2),
drift(L2 norm), kick(K1), drift(L1 norm). -/
def claimSlice (A B : List ℚ) (mo : ℕ) (L1 L2 K1 K2 : ℚ) (s : P6) : P6 :=
  let norm := D.v 1 / (D.v 1 + s.dp)
  fastdrift
    (strthinkick
      (fastdrift
        (strthinkick
          (fastdrift (strthinkick (fastdrift s (D.v L1 * norm)) A B K1 mo)
            (D.v L2 * norm))
          A B K2 mo)
        (D.v L2 * norm))
      A B K1 mo)
    (D.v L1 * norm)

/-- Recognizer for aperture-check events. -/
def isApEv : Ev → Bool
  | Ev.rectAp => true
  | Ev.ellipAp => true
  | _ => false

/-- The loss sentinel is preserved by the external fringe maps: once the
x coordinate is NaN it stays NaN.  The spec demands this of every stage
(loss propagates silently downstream), so it is the contract assumed of
the externally supplied fringe models. -/
structure LostPreserving (fr : FringeModels) : Prop where
  hp : ∀ t b, t.x = D.nan → (fr.quadFringePassP t b).x = D.nan
  hn : ∀ t b, t.x = D.nan → (fr.quadFringePassN t b).x = D.nan
  hle : ∀ t b m p, t.x = D.nan → (fr.linearEntrance t b m p).x = D.nan
  hlx : ∀ t b m p, t.x = D.nan → (fr.linearExit t b m p).x = D.nan

/-- Round a rational to the nearest integer, ties to even. -/
def rne (q : ℚ) : ℤ :=
  if q - ⌊q⌋ < 1 / 2 then ⌊q⌋
  else if 1 / 2 < q - ⌊q⌋ then ⌊q⌋ + 1
  else if ⌊q⌋ % 2 = 0 then ⌊q⌋ else ⌊q⌋ + 1

/-- Multiply a rational by 2^k for a signed k. -/
def scalePow2 (q : ℚ) (k : ℤ) : ℚ :=
  if 0 ≤ k then q * (2 : ℚ) ^ k.toNat else q / (2 : ℚ) ^ (-k).toNat

/-- Round-to-nearest-even binary64 rounding of an exact rational, valid
for the normal range (no overflow or subnormal occurs for the values
considered here): the significand is 53 bits, so the exact value is
scaled by 2^(52 - e) with e the floor of its base-2 logarithm, rounded
to an integer with ties to even, and scaled back.  This models both how
a C compiler maps a decimal literal to a double and how a double
operation rounds its exact result. -/
def fl64 (q : ℚ) : ℚ :=
  if q = 0 then 0
  else
    (if q < 0 then (-1 : ℚ) else 1) *
      scalePow2 ((rne (scalePow2 |q| (52 - Int.log 2 |q|)) : ℤ) : ℚ)
        (Int.log 2 |q| - 52)

/-- A particle already carrying the loss sentinel. -/
def nanP : P6 :=
  { P6.zero with x := D.nan }

/-- Element used for the fringe fallback counterexample: linear-integral
fringe mode requested on both sides, but fringeIntM0 absent. -/
def E1 : Elem :=
  { Length := 0, PolynomA := [0, 0], PolynomB := [0, 1], MaxOrder := 1,
    NumIntSteps := 1, FringeQuadEntrance := 2, FringeQuadExit := 2,
    fringeIntM0 := none, fringeIntP0 := some [0, 0, 0, 0, 0], T1 := none,
    T2 := none, R1 := none, R2 := none, RApertures := none,
    EApertures := none }

/-- Element used for the aperture short-circuit counterexample: only a
rectangular aperture, one slice of unit length. -/
def E2 : Elem :=
  { Length := 1, PolynomA := [0], PolynomB := [0], MaxOrder := 0,
    NumIntSteps := 1, FringeQuadEntrance := 0, FringeQuadExit := 0,
    fringeIntM0 := none, fringeIntP0 := none, T1 := none, T2 := none,
    R1 := none, R2 := none, RApertures := some [-1, 1, -1, 1],
    EApertures := none }

/-- Particle outside the rectangular aperture of E2 (x = 2), with unit
vertical momentum so that drifts move y. -/
def s2 : P6 :=
  P6.mk (D.v 2) (D.v 0) (D.v 0) (D.v 1) (D.v 0) (D.v 0)

/-- Element with both apertures present, used for the check-order
counterexample. -/
def E3 : Elem :=
  { Length := 0, PolynomA := [0], PolynomB := [0], MaxOrder := 0,
    NumIntSteps := 1, FringeQuadEntrance := 0, FringeQuadExit := 0,
    fringeIntM0 := none, fringeIntP0 := none, T1 := none, T2 := none,
    R1 := none, R2 := none, RApertures := some [-1, 1, -1, 1],
    EApertures := some [1, 1, 0, 0] }

/-- Minimal element with no optional feature, one zero-length slice. -/
def E9 : Elem :=
  { Length := 0, PolynomA := [0], PolynomB := [0], MaxOrder := 0,
    NumIntSteps := 1, FringeQuadEntrance := 0, FringeQuadExit := 0,
    fringeIntM0 := none, fringeIntP0 := none, T1 := none, T2 := none,
    R1 := none, R2 := none, RApertures := none, EApertures := none }

/-- Particle with finite x but NaN vertical momentum. -/
def s9 : P6 :=
  { P6.zero with py := D.nan }

/-- Element of unit length with one slice, used to exhibit the kick
strengths. -/
def EW : Elem :=
  { Length := 1, PolynomA := [0], PolynomB := [0], MaxOrder := 0,
    NumIntSteps := 1, FringeQuadEntrance := 0, FringeQuadExit := 0,
    fringeIntM0 := none, fringeIntP0 := none, T1 := none, T2 := none,
    R1 := none, R2 := none, RApertures := none, EApertures := none }

/-- Recognizer for kick events. -/
def isKickEv : Ev → Bool
  | Ev.kick _ => true
  | _ => false

/-- Number of occurrences of an event in a trace. -/
def countEv (e : Ev) : List Ev → ℕ
  | [] => 0
  | a :: l => (if a = e then 1 else 0) + countEv e l

/-! Helper lemmas: arithmetic on `D`, traces, and NaN propagation. -/

@[simp] lemma v_add_v (a b : ℚ) : D.v a + D.v b = D.v (a + b) := rfl

@[simp] lemma nan_add (b : D) : D.nan + b = D.nan := rfl

@[simp] lemma add_nan (a : D) : a + D.nan = D.nan := by cases a <;> rfl

@[simp] lemma v_sub_v (a b : ℚ) : D.v a - D.v b = D.v (a - b) := rfl

@[simp] lemma nan_sub (b : D) : D.nan - b = D.nan := rfl

@[simp] lemma sub_nan (a : D) : a - D.nan = D.nan := by cases a <;> rfl

@[simp] lemma v_mul_v (a b : ℚ) : D.v a * D.v b = D.v (a * b) := rfl

@[simp] lemma nan_mul (b : D) : D.nan * b = D.nan := rfl

@[simp] lemma mul_nan (a : D) : a * D.nan = D.nan := by cases a <;> rfl

@[simp] lemma v_div_v (a b : ℚ) :
    D.v a / D.v b = if b = 0 then D.nan else D.v (a / b) := rfl

@[simp] lemma nan_div (b : D) : D.nan / b = D.nan := rfl

@[simp] lemma div_nan (a : D) : a / D.nan = D.nan := by cases a <;> rfl

@[simp] lemma lt_v_v (a b : ℚ) : (D.v a).lt (D.v b) = decide (a < b) := rfl

@[simp] lemma lt_nan_left (b : D) : D.nan.lt b = false := rfl

@[simp] lemma lt_nan_right (a : D) : a.lt D.nan = false := by cases a <;> rfl

@[simp] lemma isNaN_nan : D.nan.isNaN = true := rfl

@[simp] lemma isNaN_v (a : ℚ) : (D.v a).isNaN = false := rfl

lemma isNaN_eq_true_iff (a : D) : a.isNaN = true ↔ a = D.nan := by
  cases a <;> simp [D.isNaN]

@[simp] lemma rangeOne : List.range 1 = [0] := rfl

@[simp] lemma rangeTwo : List.range 2 = [0, 1] := rfl

lemma step_fst (p : P6 × List Ev) (f : P6 → P6 × List Ev) :
    (step p f).1 = (f p.1).1 := rfl

lemma step_snd (p : P6 × List Ev) (f : P6 → P6 × List Ev) :
    (step p f).2 = p.2 ++ (f p.1).2 := rfl

lemma passOneTr_eq (fr : FringeModels) (E : Elem) (s : P6) :
    passOneTr fr E s =
      particlePass fr E
        (E.fringeIntM0.isSome && E.fringeIntP0.isSome &&
          decide (E.FringeQuadEntrance = 2))
        (E.fringeIntM0.isSome && E.fringeIntP0.isSome &&
          decide (E.FringeQuadExit = 2))
        (E.Length / (E.NumIntSteps : ℚ) * DRIFT1)
        (E.Length / (E.NumIntSteps : ℚ) * DRIFT2)
        (E.Length / (E.NumIntSteps : ℚ) * KICK1)
        (E.Length / (E.NumIntSteps : ℚ) * KICK2) s := rfl

lemma stT1_snd (E : Elem) (s : P6) :
    (stT1 E s).2 = if E.T1.isSome then [Ev.addShift] else [] := by
  rcases hT : E.T1 with _ | t <;> simp [stT1, hT]

lemma stR1_snd (E : Elem) (s : P6) :
    (stR1 E s).2 = if E.R1.isSome then [Ev.multMat] else [] := by
  rcases hT : E.R1 with _ | t <;> simp [stR1, hT]

lemma stR2_snd (E : Elem) (s : P6) :
    (stR2 E s).2 = if E.R2.isSome then [Ev.multMat] else [] := by
  rcases hT : E.R2 with _ | t <;> simp [stR2, hT]

lemma stT2_snd (E : Elem) (s : P6) :
    (stT2 E s).2 = if E.T2.isSome then [Ev.addShift] else [] := by
  rcases hT : E.T2 with _ | t <;> simp [stT2, hT]

lemma stRect_snd (E : Elem) (s : P6) :
    (stRect E s).2 = if E.RApertures.isSome then [Ev.rectAp] else [] := by
  rcases hT : E.RApertures with _ | a <;> simp [stRect, hT]

lemma stEllip_snd (E : Elem) (s : P6) :
    (stEllip E s).2 = if E.EApertures.isSome then [Ev.ellipAp] else [] := by
  rcases hT : E.EApertures with _ | a <;> simp [stEllip, hT]

lemma stFringeEnt_snd (fr : FringeModels) (E : Elem) (u : Bool) (s : P6) :
    (stFringeEnt fr E u s).2 =
      if E.FringeQuadEntrance = 0 then []
      else if E.PolynomB.getD 1 0 = 0 then [Ev.readB1]
      else if u then [Ev.readB1, Ev.fringeLinEnt]
      else [Ev.readB1, Ev.fringeHardEnt] := by
  unfold stFringeEnt
  split_ifs <;> rfl

lemma stFringeExit_snd (fr : FringeModels) (E : Elem) (u : Bool) (s : P6) :
    (stFringeExit fr E u s).2 =
      if E.FringeQuadExit = 0 then []
      else if E.PolynomB.getD 1 0 = 0 then [Ev.readB1]
      else if u then [Ev.readB1, Ev.fringeLinExit]
      else [Ev.readB1, Ev.fringeHardExit] := by
  unfold stFringeExit
  split_ifs <;> rfl

lemma sliceOnce_fst (A B : List ℚ) (mo : ℕ) (L1 L2 K1 K2 : ℚ) (s : P6) :
    (sliceOnce A B mo L1 L2 K1 K2 s).1 = claimSlice A B mo L1 L2 K1 K2 s := rfl

lemma integrateSlices_fst (A B : List ℚ) (mo : ℕ) (L1 L2 K1 K2 : ℚ) :
    ∀ (n : ℕ) (s : P6),
      (integrateSlices A B mo L1 L2 K1 K2 n s).1 =
        (claimSlice A B mo L1 L2 K1 K2)^[n] s := by
  intro n
  induction n with
  | zero => intro s; rfl
  | succ n ih =>
    intro s
    show (integrateSlices A B mo L1 L2 K1 K2 n
        (sliceOnce A B mo L1 L2 K1 K2 s).1).1 = _
    rw [ih, sliceOnce_fst, Function.iterate_succ_apply]

lemma integrateSlices_events (A B : List ℚ) (mo : ℕ) (L1 L2 K1 K2 : ℚ) :
    ∀ (n : ℕ) (s : P6) (e : Ev),
      e ∈ (integrateSlices A B mo L1 L2 K1 K2 n s).2 →
        (∃ d, e = Ev.drift d) ∨ e = Ev.kick K1 ∨ e = Ev.kick K2 := by
  intro n
  induction n with
  | zero => intro s e h; simp [integrateSlices] at h
  | succ n ih =>
    intro s e h
    rcases List.mem_append.mp h with h1 | h2
    · simp only [sliceOnce, List.mem_cons, List.not_mem_nil, or_false] at h1
      rcases h1 with h1 | h1 | h1 | h1 | h1 | h1 | h1 <;> subst h1 <;>
        simp
    · exact ih _ _ h2

lemma not_mem_integrateSlices {e : Ev} (A B : List ℚ) (mo : ℕ)
    (L1 L2 K1 K2 : ℚ) (n : ℕ) (s : P6) (hd : ∀ d, e ≠ Ev.drift d)
    (hk : ∀ k, e ≠ Ev.kick k) :
    e ∉ (integrateSlices A B mo L1 L2 K1 K2 n s).2 := by
  intro h
  rcases integrateSlices_events A B mo L1 L2 K1 K2 n s e h with ⟨d, hdd⟩ | h | h
  · exact hd d hdd
  · exact hk _ h
  · exact hk _ h

lemma integrateSlices_snd_ne_nil (A B : List ℚ) (mo : ℕ) (L1 L2 K1 K2 : ℚ)
    (n : ℕ) (s : P6) (hn : 1 ≤ n) :
    (integrateSlices A B mo L1 L2 K1 K2 n s).2 ≠ [] := by
  cases n with
  | zero => omega
  | succ n => simp [integrateSlices, sliceOnce]

lemma mem_ite_list {c : Prop} [Decidable c] {a : Ev} {l1 l2 : List Ev} :
    a ∈ (if c then l1 else l2) ↔ (c ∧ a ∈ l1) ∨ (¬c ∧ a ∈ l2) := by
  split <;> simp [*]

lemma count_ite_list (c : Prop) [Decidable c] (a : Ev) (l1 l2 : List Ev) :
    (if c then l1 else l2).count a = if c then l1.count a else l2.count a := by
  split <;> rfl

lemma filter_ite_list (c : Prop) [Decidable c] (p : Ev → Bool)
    (l1 l2 : List Ev) :
    (if c then l1 else l2).filter p =
      if c then l1.filter p else l2.filter p := by
  split <;> rfl

lemma x_fastdrift_nan {s : P6} {L : D} (h : s.x = D.nan) :
    (fastdrift s L).x = D.nan := by
  simp [fastdrift, h]

lemma x_strthinkick (s : P6) (A B : List ℚ) (K : ℚ) (mo : ℕ) :
    (strthinkick s A B K mo).x = s.x := rfl

lemma x_rect_nan {s : P6} {lim : List ℚ} (h : s.x = D.nan) :
    (checkiflostRectangularAp s lim).x = D.nan := by
  unfold checkiflostRectangularAp
  split <;> simp [h]

lemma x_ellip_nan {s : P6} {lim : List ℚ} (h : s.x = D.nan) :
    (checkiflostEllipticalAp s lim).x = D.nan := by
  simp only [checkiflostEllipticalAp]
  split <;> simp [h]

lemma x_addvv_nan {s : P6} {t : List ℚ} (h : s.x = D.nan) :
    (ATaddvv s t).x = D.nan := by
  simp [ATaddvv, h]

lemma x_multmv_nan {s : P6} {m : List ℚ} (h : s.x = D.nan) :
    (ATmultmv s m).x = D.nan := by
  simp [ATmultmv, dotRow, h]

lemma x_claimSlice_nan {A B : List ℚ} {mo : ℕ} {L1 L2 K1 K2 : ℚ} {s : P6}
    (h : s.x = D.nan) : (claimSlice A B mo L1 L2 K1 K2 s).x = D.nan := by
  unfold claimSlice
  apply x_fastdrift_nan
  rw [x_strthinkick]
  apply x_fastdrift_nan
  rw [x_strthinkick]
  apply x_fastdrift_nan
  rw [x_strthinkick]
  exact x_fastdrift_nan h

lemma x_integrate_nan {A B : List ℚ} {mo : ℕ} {L1 L2 K1 K2 : ℚ} {n : ℕ}
    {s : P6} (h : s.x = D.nan) :
    ((integrateSlices A B mo L1 L2 K1 K2 n s).1).x = D.nan := by
  rw [integrateSlices_fst]
  induction n generalizing s with
  | zero => exact h
  | succ n ih =>
    rw [Function.iterate_succ_apply]
    exact ih (x_claimSlice_nan h)

lemma x_stRect_nan {E : Elem} {s : P6} (h : s.x = D.nan) :
    ((stRect E s).1).x = D.nan := by
  rcases hT : E.RApertures with _ | a <;> simp [stRect, hT, h, x_rect_nan]

lemma x_stEllip_nan {E : Elem} {s : P6} (h : s.x = D.nan) :
    ((stEllip E s).1).x = D.nan := by
  rcases hT : E.EApertures with _ | a <;> simp [stEllip, hT, h, x_ellip_nan]

lemma x_stR2_nan {E : Elem} {s : P6} (h : s.x = D.nan) :
    ((stR2 E s).1).x = D.nan := by
  rcases hT : E.R2 with _ | m <;> simp [stR2, hT, h, x_multmv_nan]

lemma x_stT2_nan {E : Elem} {s : P6} (h : s.x = D.nan) :
    ((stT2 E s).1).x = D.nan := by
  rcases hT : E.T2 with _ | t <;> simp [stT2, hT, h, x_addvv_nan]

lemma x_stFringeExit_nan {fr : FringeModels} (hfr : LostPreserving fr)
    {E : Elem} {u : Bool} {s : P6} (h : s.x = D.nan) :
    ((stFringeExit fr E u s).1).x = D.nan := by
  unfold stFringeExit
  split
  · exact h
  · split
    · exact h
    · split
      · exact hfr.hlx _ _ _ _ h
      · exact hfr.hn _ _ h

lemma x_exitSection_nan {fr : FringeModels} (hfr : LostPreserving fr)
    {E : Elem} {u : Bool} {s : P6} (h : s.x = D.nan) :
    ((exitSection fr E u s).1).x = D.nan := by
  unfold exitSection
  rw [step_fst, step_fst, step_fst, step_fst]
  exact x_stT2_nan (x_stR2_nan (x_stEllip_nan (x_stRect_nan
    (x_stFringeExit_nan hfr h))))

@[simp] lemma countEv_nil (e : Ev) : countEv e [] = 0 := rfl

@[simp] lemma countEv_cons (e a : Ev) (l : List Ev) :
    countEv e (a :: l) = (if a = e then 1 else 0) + countEv e l := rfl

@[simp] lemma countEv_append (e : Ev) (l1 l2 : List Ev) :
    countEv e (l1 ++ l2) = countEv e l1 + countEv e l2 := by
  induction l1 with
  | nil => simp
  | cons a l ih => simp [ih]; omega

lemma countEv_eq_zero_of_not_mem {e : Ev} {l : List Ev} (h : e ∉ l) :
    countEv e l = 0 := by
  induction l with
  | nil => rfl
  | cons a l ih =>
    rw [countEv_cons, if_neg, ih (fun hm => h (List.mem_cons_of_mem a hm))]
    intro ha
    exact h (ha ▸ List.mem_cons_self a l)

lemma countEv_ite (c : Prop) [Decidable c] (e : Ev) (l1 l2 : List Ev) :
    countEv e (if c then l1 else l2) =
      if c then countEv e l1 else countEv e l2 := by
  split <;> rfl

/-! Lemmas evaluating the binary64 rounding on the coefficient literals. -/

lemma intLog2_eq {r : ℚ} {e : ℤ} (h0 : 0 < r) (h1 : (2 : ℚ) ^ e ≤ r)
    (h2 : r < (2 : ℚ) ^ (e + 1)) : Int.log 2 r = e := by
  have hb : 1 < 2 := one_lt_two
  have hle : e ≤ Int.log 2 r := by
    rw [← Int.zpow_le_iff_le_log hb h0]
    exact_mod_cast h1
  have hlt : Int.log 2 r < e + 1 := by
    rw [← Int.lt_zpow_iff_log_lt hb h0]
    exact_mod_cast h2
  omega

lemma rne_of_lt_half {q : ℚ} {f : ℤ} (h1 : (f : ℚ) ≤ q)
    (h2 : q - f < 1 / 2) : rne q = f := by
  have hfl : ⌊q⌋ = f := Int.floor_eq_iff.mpr ⟨h1, by linarith⟩
  unfold rne
  rw [hfl, if_pos h2]

lemma rne_of_half_lt {q : ℚ} {f : ℤ} (h1 : (f : ℚ) ≤ q)
    (h2 : 1 / 2 < q - f) (h3 : q < f + 1) : rne q = f + 1 := by
  have hfl : ⌊q⌋ = f := Int.floor_eq_iff.mpr ⟨h1, by linarith⟩
  unfold rne
  rw [hfl, if_neg (by linarith), if_pos h2]

lemma rne_intCast (n : ℤ) : rne ((n : ℤ) : ℚ) = n := by
  apply rne_of_lt_half le_rfl
  norm_num

lemma fl64_pos {q r : ℚ} {e : ℤ} {k : ℕ} {n : ℤ} (hq : 0 < q)
    (h1 : (2 : ℚ) ^ e ≤ q) (h2 : q < (2 : ℚ) ^ (e + 1))
    (hk : (52 : ℤ) - e = (k : ℤ)) (hk0 : 0 < k)
    (hn : rne (q * 2 ^ k) = n) (hr : ((n : ℤ) : ℚ) / 2 ^ k = r) :
    fl64 q = r := by
  have hlog : Int.log 2 |q| = e := by
    rw [abs_of_pos hq]; exact intLog2_eq hq h1 h2
  have hk2 : Int.log 2 |q| - 52 = -(k : ℤ) := by omega
  unfold fl64
  rw [if_neg hq.ne', if_neg (not_lt.mpr hq.le), hk2, hlog, hk, abs_of_pos hq]
  unfold scalePow2
  rw [if_pos (Int.natCast_nonneg k), Int.toNat_natCast, hn,
    if_neg (by omega), neg_neg, Int.toNat_natCast, hr, one_mul]

lemma fl64_neg {q : ℚ} (hq : 0 < q) : fl64 (-q) = -fl64 q := by
  unfold fl64
  rw [if_neg (neg_ne_zero.mpr hq.ne'), if_neg hq.ne',
    if_pos (neg_neg_iff_pos.mpr hq), if_neg (not_lt.mpr hq.le), abs_neg,
    neg_one_mul, one_mul]

lemma fl64_DRIFT1 : fl64 DRIFT1 = 6085296206209847 / 9007199254740992 := by
  have hn : rne (DRIFT1 * 2 ^ 53) = 6085296206209847 := by
    have h := @rne_of_half_lt (DRIFT1 * 2 ^ 53) 6085296206209846
      (by norm_num [DRIFT1]) (by norm_num [DRIFT1]) (by norm_num [DRIFT1])
    omega
  exact @fl64_pos DRIFT1 _ (-1) 53 6085296206209847 (by norm_num [DRIFT1])
    (by norm_num [DRIFT1]) (by norm_num [DRIFT1]) (by norm_num) (by norm_num)
    hn (by norm_num)

lemma fl64_DRIFT2 : fl64 DRIFT2 = -(1581696578839351 / 9007199254740992) := by
  rw [show DRIFT2 = -(0.1756035959798286639 : ℚ) from rfl,
    fl64_neg (by norm_num), neg_inj]
  have hn : rne ((0.1756035959798286639 : ℚ) * 2 ^ 55) = 6326786315357404 := by
    apply rne_of_lt_half <;> norm_num
  exact @fl64_pos (0.1756035959798286639 : ℚ) _ (-3) 55 6326786315357404
    (by norm_num) (by norm_num) (by norm_num) (by norm_num) (by norm_num)
    hn (by norm_num)

lemma fl64_KICK1 : fl64 KICK1 = 6085296206209847 / 4503599627370496 := by
  have hn : rne (KICK1 * 2 ^ 52) = 6085296206209847 := by
    apply rne_of_lt_half <;> norm_num [KICK1]
  exact @fl64_pos KICK1 _ 0 52 6085296206209847 (by norm_num [KICK1])
    (by norm_num [KICK1]) (by norm_num [KICK1]) (by norm_num) (by norm_num)
    hn (by norm_num)

lemma fl64_KICK2 : fl64 KICK2 = -(3833496392524599 / 2251799813685248) := by
  rw [show KICK2 = -(1.702414383919314656 : ℚ) from rfl,
    fl64_neg (by norm_num), neg_inj]
  have hn : rne ((1.702414383919314656 : ℚ) * 2 ^ 52) = 7666992785049198 := by
    apply rne_of_lt_half <;> norm_num
  exact @fl64_pos (1.702414383919314656 : ℚ) _ 0 52 7666992785049198
    (by norm_num) (by norm_num) (by norm_num) (by norm_num) (by norm_num)
    hn (by norm_num)

lemma fl64_fix_q51 : fl64 (6085296206209847 / 2251799813685248) =
    6085296206209847 / 2251799813685248 := by
  have hn : rne ((6085296206209847 / 2251799813685248 : ℚ) * 2 ^ 51) =
      6085296206209847 := by
    rw [show (6085296206209847 / 2251799813685248 : ℚ) * 2 ^ 51 =
      ((6085296206209847 : ℤ) : ℚ) by norm_num]
    exact rne_intCast _
  exact @fl64_pos _ _ 1 51 6085296206209847 (by norm_num) (by norm_num)
    (by norm_num) (by norm_num) (by norm_num) hn (by norm_num)

lemma fl64_fix_q50neg : fl64 (-(3833496392524599 / 1125899906842624)) =
    -(3833496392524599 / 1125899906842624) := by
  rw [fl64_neg (by norm_num), neg_inj]
  have hn : rne ((3833496392524599 / 1125899906842624 : ℚ) * 2 ^ 51) =
      7666992785049198 := by
    rw [show (3833496392524599 / 1125899906842624 : ℚ) * 2 ^ 51 =
      ((7666992785049198 : ℤ) : ℚ) by norm_num]
    exact rne_intCast _
  exact @fl64_pos _ _ 1 51 7666992785049198 (by norm_num) (by norm_num)
    (by norm_num) (by norm_num) (by norm_num) hn (by norm_num)

lemma fl64_fix_sum : fl64 (-(1581696578839351 / 2251799813685248)) =
    -(1581696578839351 / 2251799813685248) := by
  rw [fl64_neg (by norm_num), neg_inj]
  have hn : rne ((1581696578839351 / 2251799813685248 : ℚ) * 2 ^ 53) =
      6326786315357404 := by
    rw [show (1581696578839351 / 2251799813685248 : ℚ) * 2 ^ 53 =
      ((6326786315357404 : ℤ) : ℚ) by norm_num]
    exact rne_intCast _
  exact @fl64_pos _ _ (-1) 53 6326786315357404 (by norm_num) (by norm_num)
    (by norm_num) (by norm_num) (by norm_num) hn (by norm_num)

lemma fl64_fix_q52 : fl64 (6085296206209847 / 4503599627370496) =
    6085296206209847 / 4503599627370496 := by
  have hn : rne ((6085296206209847 / 4503599627370496 : ℚ) * 2 ^ 52) =
      6085296206209847 := by
    rw [show (6085296206209847 / 4503599627370496 : ℚ) * 2 ^ 52 =
      ((6085296206209847 : ℤ) : ℚ) by norm_num]
    exact rne_intCast _
  exact @fl64_pos _ _ 0 52 6085296206209847 (by norm_num) (by norm_num)
    (by norm_num) (by norm_num) (by norm_num) hn (by norm_num)

lemma fl64_fix_q52neg : fl64 (-(1581696578839351 / 4503599627370496)) =
    -(1581696578839351 / 4503599627370496) := by
  rw [fl64_neg (by norm_num), neg_inj]
  have hn : rne ((1581696578839351 / 4503599627370496 : ℚ) * 2 ^ 54) =
      6326786315357404 := by
    rw [show (1581696578839351 / 4503599627370496 : ℚ) * 2 ^ 54 =
      ((6326786315357404 : ℤ) : ℚ) by norm_num]
    exact rne_intCast _
  exact @fl64_pos _ _ (-2) 54 6326786315357404 (by norm_num) (by norm_num)
    (by norm_num) (by norm_num) (by norm_num) hn (by norm_num)

lemma fl64_one : fl64 1 = 1 := by
  have hn : rne ((1 : ℚ) * 2 ^ 52) = 4503599627370496 := by
    rw [show (1 : ℚ) * 2 ^ 52 = ((4503599627370496 : ℤ) : ℚ) by norm_num]
    exact rne_intCast _
  exact @fl64_pos 1 _ 0 52 4503599627370496 (by norm_num) (by norm_num)
    (by norm_num) (by norm_num) (by norm_num) hn (by norm_num)

/-! Claim theorems. -/

/-- C4: for every particle that is not lost, the integration between the
entrance and exit sections is exactly NumIntSteps iterations of the slice
map drift(L1 norm), kick(K1), drift(L2 norm), kick(K2), drift(L2 norm),
kick(K1), drift(L1 norm), with norm = 1/(1+delta) recomputed from the
current delta at the start of each slice. -/
theorem c4_slice_structure :
    (∀ (A B : List ℚ) (mo : ℕ) (L1 L2 K1 K2 : ℚ) (n : ℕ) (s : P6),
      (integrateSlices A B mo L1 L2 K1 K2 n s).1 =
        (claimSlice A B mo L1 L2 K1 K2)^[n] s) ∧
    ∀ (fr : FringeModels) (E : Elem) (s : P6), s.x.isNaN = false →
      (passOneTr fr E s).1 =
        (exitSection fr E
          (E.fringeIntM0.isSome && E.fringeIntP0.isSome &&
            decide (E.FringeQuadExit = 2))
          ((claimSlice E.PolynomA E.PolynomB E.MaxOrder
              (E.Length / (E.NumIntSteps : ℚ) * DRIFT1)
              (E.Length / (E.NumIntSteps : ℚ) * DRIFT2)
              (E.Length / (E.NumIntSteps : ℚ) * KICK1)
              (E.Length / (E.NumIntSteps : ℚ) * KICK2))^[E.NumIntSteps]
            ((entranceSection fr E
              (E.fringeIntM0.isSome && E.fringeIntP0.isSome &&
                decide (E.FringeQuadEntrance = 2)) s).1))).1 := by
  constructor
  · exact fun A B mo L1 L2 K1 K2 n s => integrateSlices_fst A B mo L1 L2 K1 K2 n s
  · intro fr E s hs
    rw [passOneTr_eq]
    unfold particlePass
    rw [if_neg (by simp [hs])]
    unfold pipelineBody
    rw [step_fst, step_fst, integrateSlices_fst]

/-- Witness for C4 at a concrete non-lost particle. -/
theorem c4_slice_structure_witness :
    P6.zero.x.isNaN = false ∧
    (passOneTr trivFringe E9 P6.zero).1 =
      (exitSection trivFringe E9
        (E9.fringeIntM0.isSome && E9.fringeIntP0.isSome &&
          decide (E9.FringeQuadExit = 2))
        ((claimSlice E9.PolynomA E9.PolynomB E9.MaxOrder
            (E9.Length / (E9.NumIntSteps : ℚ) * DRIFT1)
            (E9.Length / (E9.NumIntSteps : ℚ) * DRIFT2)
            (E9.Length / (E9.NumIntSteps : ℚ) * KICK1)
            (E9.Length / (E9.NumIntSteps : ℚ) * KICK2))^[E9.NumIntSteps]
          ((entranceSection trivFringe E9
            (E9.fringeIntM0.isSome && E9.fringeIntP0.isSome &&
              decide (E9.FringeQuadEntrance = 2)) P6.zero).1))).1 :=
  ⟨rfl, c4_slice_structure.2 trivFringe E9 P6.zero rfl⟩

/-- C5: the four step coefficients are SL times the fourth-order
composition constants, with SL = Length/NumIntSteps; they are computed
once per call, before the particle loop (the pass is the map of one fixed
per-particle function over the batch), and every kick of every slice of
every particle uses K1 = SL KICK1 or K2 = SL KICK2. -/
theorem c5_coefficients (fr : FringeModels) (E : Elem) :
    (∀ rs, StrMPoleSymplectic4PassTr fr E rs =
      rs.map (particlePass fr E
        (E.fringeIntM0.isSome && E.fringeIntP0.isSome &&
          decide (E.FringeQuadEntrance = 2))
        (E.fringeIntM0.isSome && E.fringeIntP0.isSome &&
          decide (E.FringeQuadExit = 2))
        (E.Length / (E.NumIntSteps : ℚ) * DRIFT1)
        (E.Length / (E.NumIntSteps : ℚ) * DRIFT2)
        (E.Length / (E.NumIntSteps : ℚ) * KICK1)
        (E.Length / (E.NumIntSteps : ℚ) * KICK2))) ∧
    DRIFT1 = 0.6756035959798286638 ∧ DRIFT2 = -0.1756035959798286639 ∧
    KICK1 = 1.351207191959657328 ∧ KICK2 = -1.702414383919314656 ∧
    ∀ (s : P6) (k : ℚ), Ev.kick k ∈ (passOneTr fr E s).2 →
      k = E.Length / (E.NumIntSteps : ℚ) * KICK1 ∨
        k = E.Length / (E.NumIntSteps : ℚ) * KICK2 := by
  refine ⟨fun rs => rfl, rfl, rfl, rfl, rfl, ?_⟩
  intro s k hk
  by_cases hs : s.x.isNaN = true
  · rw [passOneTr_eq] at hk
    unfold particlePass at hk
    rw [if_pos hs] at hk
    simp at hk
  · rw [passOneTr_eq] at hk
    unfold particlePass at hk
    rw [if_neg hs] at hk
    unfold pipelineBody entranceSection exitSection at hk
    simp only [step_snd, step_fst, stT1_snd, stR1_snd, stRect_snd,
      stEllip_snd, stFringeEnt_snd, stFringeExit_snd, stR2_snd,
      stT2_snd] at hk
    simp [mem_ite_list] at hk
    rcases integrateSlices_events _ _ _ _ _ _ _ _ _ _ hk with ⟨d, hkd⟩ | hkk | hkk
    · exact absurd hkd (by simp)
    · simp at hkk
      exact Or.inl hkk
    · simp at hkk
      exact Or.inr hkk

/-- Witness for C5: a concrete kick event and its identified strength. -/
theorem c5_coefficients_witness :
    Ev.kick (EW.Length / (EW.NumIntSteps : ℚ) * KICK1) ∈
      (passOneTr trivFringe EW P6.zero).2 ∧
    (EW.Length / (EW.NumIntSteps : ℚ) * KICK1 =
        EW.Length / (EW.NumIntSteps : ℚ) * KICK1 ∨
      EW.Length / (EW.NumIntSteps : ℚ) * KICK1 =
        EW.Length / (EW.NumIntSteps : ℚ) * KICK2) := by
  have hm : Ev.kick (EW.Length / (EW.NumIntSteps : ℚ) * KICK1) ∈
      (passOneTr trivFringe EW P6.zero).2 := by
    norm_num [passOneTr_eq, particlePass, pipelineBody, entranceSection,
      exitSection, step, stT1, stR1, stRect, stEllip, stFringeEnt,
      stFringeExit, stT2, stR2, integrateSlices, sliceOnce, fastdrift,
      strthinkick, fieldPoly, cmulD, cpowD, EW, P6.zero, trivFringe,
      DRIFT1, DRIFT2, KICK1, KICK2]
  exact ⟨hm, (c5_coefficients trivFringe EW).2.2.2.2.2 P6.zero _ hm⟩

/-- C6: a particle entering with the NaN sentinel in x is returned
bit-identical, with an empty trace: no stage runs, under every parameter
configuration and every fringe model. -/
theorem c6_already_lost_skip (fr : FringeModels) (E : Elem) (s : P6)
    (h : s.x.isNaN = true) : passOneTr fr E s = (s, []) := by
  rw [passOneTr_eq]
  unfold particlePass
  rw [if_pos h]

/-- Witness for C6 at a concrete NaN-marked particle. -/
theorem c6_already_lost_skip_witness :
    passOneTr trivFringe E2 nanP = (nanP, []) :=
  c6_already_lost_skip trivFringe E2 nanP rfl

/-- C8: the pass is the map of one per-particle function over the batch
(so each particle final state depends only on its own initial state and
the read-only parameters), and permuting the batch permutes the results
accordingly; parameters are immutable by construction in this embedding. -/
theorem c8_batch_independence (fr : FringeModels) (E : Elem) :
    (∀ rs, StrMPoleSymplectic4Pass fr E rs = rs.map (passOne fr E)) ∧
    ∀ rs1 rs2, rs1.Perm rs2 →
      (StrMPoleSymplectic4Pass fr E rs1).Perm
        (StrMPoleSymplectic4Pass fr E rs2) := by
  have hmap : ∀ rs, StrMPoleSymplectic4Pass fr E rs = rs.map (passOne fr E) := by
    intro rs
    simp only [StrMPoleSymplectic4Pass, StrMPoleSymplectic4PassTr, List.map_map]
    rfl
  exact ⟨hmap, fun rs1 rs2 hp => by rw [hmap, hmap]; exact hp.map _⟩

/-- Witness for C8: a two-particle batch processed in swapped order. -/
theorem c8_batch_independence_witness :
    (StrMPoleSymplectic4Pass trivFringe E2 [s2, nanP]).Perm
      (StrMPoleSymplectic4Pass trivFringe E2 [nanP, s2]) :=
  (c8_batch_independence trivFringe E2).2 [s2, nanP] [nanP, s2]
    (List.Perm.swap nanP s2 [])

/-- C9: the already-lost test inspects only coordinate 0: whenever x is
finite the full pipeline body runs (regardless of NaN in the other five
coordinates), and with at least one slice the trace is nonempty. -/
theorem c9_sentinel_only_x (fr : FringeModels) (E : Elem) (s : P6)
    (hs : s.x.isNaN = false) :
    passOneTr fr E s =
      pipelineBody fr E
        (E.fringeIntM0.isSome && E.fringeIntP0.isSome &&
          decide (E.FringeQuadEntrance = 2))
        (E.fringeIntM0.isSome && E.fringeIntP0.isSome &&
          decide (E.FringeQuadExit = 2))
        (E.Length / (E.NumIntSteps : ℚ) * DRIFT1)
        (E.Length / (E.NumIntSteps : ℚ) * DRIFT2)
        (E.Length / (E.NumIntSteps : ℚ) * KICK1)
        (E.Length / (E.NumIntSteps : ℚ) * KICK2) s ∧
    (1 ≤ E.NumIntSteps → (passOneTr fr E s).2 ≠ []) := by
  constructor
  · rw [passOneTr_eq]
    unfold particlePass
    rw [if_neg (by simp [hs])]
  · intro hn heq
    rw [passOneTr_eq] at heq
    unfold particlePass at heq
    rw [if_neg (by simp [hs])] at heq
    unfold pipelineBody at heq
    simp only [step_snd] at heq
    simp only [List.append_eq_nil] at heq
    exact integrateSlices_snd_ne_nil _ _ _ _ _ _ _ _ _ hn heq.1.2

/-- Witness for C9: a particle with finite x but NaN vertical momentum is
processed (its trace is nonempty). -/
theorem c9_sentinel_only_x_witness :
    (passOneTr trivFringe E9 s9).2 ≠ [] :=
  (c9_sentinel_only_x trivFringe E9 s9 rfl).2 (by decide)

/-- C1 counterexample: with linear-integral mode (2) requested at both
sides but fringeIntM0 absent, the pass does not fail: it processes the
particle and applies the hard-edge model (the fringeHardEnt event occurs,
no fringeLinEnt event), contradicting the claim that a configuration
error is raised and no other fringe model is applied. -/
theorem c1_counterexample :
    Ev.fringeHardEnt ∈ (passOneTr trivFringe E1 P6.zero).2 ∧
    Ev.fringeLinEnt ∉ (passOneTr trivFringe E1 P6.zero).2 := by
  constructor
  · norm_num [passOneTr_eq, particlePass, pipelineBody, entranceSection,
      exitSection, step, stT1, stR1, stRect, stEllip, stFringeEnt,
      stFringeExit, stT2, stR2, integrateSlices, sliceOnce, fastdrift,
      strthinkick, fieldPoly, cmulD, cpowD, E1, P6.zero, trivFringe,
      DRIFT1, DRIFT2, KICK1, KICK2]
  · norm_num [passOneTr_eq, particlePass, pipelineBody, entranceSection,
      exitSection, step, stT1, stR1, stRect, stEllip, stFringeEnt,
      stFringeExit, stT2, stR2, integrateSlices, sliceOnce, fastdrift,
      strthinkick, fieldPoly, cmulD, cpowD, E1, P6.zero, trivFringe,
      DRIFT1, DRIFT2, KICK1, KICK2]
    decide

/-- C1 amended: when mode 2 is requested but an integral vector is
absent, the pass raises no error; on each side with a nonzero mode flag it
silently falls back to the hard-edge model for every processed particle
with B[1] nonzero. -/
theorem c1_amended_fallback (fr : FringeModels) (E : Elem) (s : P6)
    (hmiss : E.fringeIntM0 = none ∨ E.fringeIntP0 = none)
    (hs : s.x.isNaN = false) (hb : E.PolynomB.getD 1 0 ≠ 0) :
    (E.FringeQuadEntrance = 2 →
      Ev.fringeHardEnt ∈ (passOneTr fr E s).2 ∧
        Ev.fringeLinEnt ∉ (passOneTr fr E s).2) ∧
    (E.FringeQuadExit = 2 →
      Ev.fringeHardExit ∈ (passOneTr fr E s).2 ∧
        Ev.fringeLinExit ∉ (passOneTr fr E s).2) := by
  have hu1 : (E.fringeIntM0.isSome && E.fringeIntP0.isSome &&
      decide (E.FringeQuadEntrance = 2)) = false := by
    rcases hmiss with h | h <;> simp [h]
  have hu2 : (E.fringeIntM0.isSome && E.fringeIntP0.isSome &&
      decide (E.FringeQuadExit = 2)) = false := by
    rcases hmiss with h | h <;> simp [h]
  simp only [List.getD_eq_getElem?_getD] at hb
  rw [passOneTr_eq, hu1, hu2]
  unfold particlePass
  rw [if_neg (by simp [hs])]
  unfold pipelineBody entranceSection exitSection
  simp only [step_snd, step_fst, stT1_snd, stR1_snd, stRect_snd, stEllip_snd,
    stFringeEnt_snd, stFringeExit_snd, stR2_snd, stT2_snd]
  have hn1 : ∀ t : P6, Ev.fringeLinEnt ∉
      (integrateSlices E.PolynomA E.PolynomB E.MaxOrder
        (E.Length / (E.NumIntSteps : ℚ) * DRIFT1)
        (E.Length / (E.NumIntSteps : ℚ) * DRIFT2)
        (E.Length / (E.NumIntSteps : ℚ) * KICK1)
        (E.Length / (E.NumIntSteps : ℚ) * KICK2) E.NumIntSteps t).2 :=
    fun t => not_mem_integrateSlices _ _ _ _ _ _ _ _ _ (by simp) (by simp)
  have hn2 : ∀ t : P6, Ev.fringeLinExit ∉
      (integrateSlices E.PolynomA E.PolynomB E.MaxOrder
        (E.Length / (E.NumIntSteps : ℚ) * DRIFT1)
        (E.Length / (E.NumIntSteps : ℚ) * DRIFT2)
        (E.Length / (E.NumIntSteps : ℚ) * KICK1)
        (E.Length / (E.NumIntSteps : ℚ) * KICK2) E.NumIntSteps t).2 :=
    fun t => not_mem_integrateSlices _ _ _ _ _ _ _ _ _ (by simp) (by simp)
  constructor
  · intro hent
    have hne : ¬E.FringeQuadEntrance = 0 := by omega
    constructor
    · simp [mem_ite_list, hne, hb]
    · intro hmem
      simp [mem_ite_list, hne, hb, hn1] at hmem
  · intro hexit
    have hne : ¬E.FringeQuadExit = 0 := by omega
    constructor
    · simp [mem_ite_list, hne, hb]
    · intro hmem
      simp [mem_ite_list, hne, hb, hn2] at hmem

/-- Witness for the amended C1 at the concrete element E1. -/
theorem c1_amended_fallback_witness :
    Ev.fringeHardEnt ∈ (passOneTr trivFringe E1 P6.zero).2 ∧
    Ev.fringeLinEnt ∉ (passOneTr trivFringe E1 P6.zero).2 :=
  (c1_amended_fallback trivFringe E1 P6.zero (Or.inl rfl) rfl
    (by norm_num [E1])).1 rfl

/-- C2 counterexample: the particle at x = 2 against rectangular limits
[-1,1,-1,1] is marked lost by the entrance check (x becomes NaN, y still
untouched there), yet after the full pass its y coordinate has been
changed by the integration drifts - a later stage did modify a coordinate
of the lost particle. -/
theorem c2_counterexample :
    (entranceSection trivFringe E2 false s2).1 = { s2 with x := D.nan } ∧
    (passOne trivFringe E2 s2).x = D.nan ∧
    (passOne trivFringe E2 s2).y ≠ s2.y := by
  refine ⟨?_, ?_, ?_⟩ <;>
    norm_num [passOne, passOneTr_eq, particlePass, pipelineBody,
      entranceSection, exitSection, step, stT1, stR1, stRect, stEllip,
      stFringeEnt, stFringeExit, stT2, stR2, integrateSlices, sliceOnce,
      fastdrift, strthinkick, fieldPoly, cmulD, cpowD,
      checkiflostRectangularAp, checkiflostEllipticalAp, E2, s2,
      trivFringe, DRIFT1, DRIFT2, KICK1, KICK2, P6.zero]

/-- C2 amended: a particle marked lost by the entrance section keeps the
NaN mark in x through integration, exit fringe, exit aperture checks and
exit misalignment (given fringe models that preserve the mark), though the
later stages still run and may modify the other coordinates. -/
theorem c2_amended_lost_persists (fr : FringeModels)
    (hfr : LostPreserving fr) (E : Elem) (u1 u2 : Bool)
    (L1 L2 K1 K2 : ℚ) (s : P6) (hs : s.x.isNaN = false)
    (hlost : ((entranceSection fr E u1 s).1).x.isNaN = true) :
    ((particlePass fr E u1 u2 L1 L2 K1 K2 s).1).x.isNaN = true := by
  rw [isNaN_eq_true_iff] at hlost ⊢
  unfold particlePass
  rw [if_neg (by simp [hs])]
  unfold pipelineBody
  rw [step_fst, step_fst]
  exact x_exitSection_nan hfr (x_integrate_nan hlost)

/-- Witness for the amended C2 at the concrete lost particle. -/
theorem c2_amended_lost_persists_witness :
    ((entranceSection trivFringe E2 false s2).1).x.isNaN = true ∧
    ((particlePass trivFringe E2 false false 1 1 1 1 s2).1).x.isNaN = true := by
  have hl : ((entranceSection trivFringe E2 false s2).1).x.isNaN = true := by
    norm_num [entranceSection, step, stT1, stR1, stRect, stEllip,
      stFringeEnt, checkiflostRectangularAp, checkiflostEllipticalAp, E2,
      s2, trivFringe]
  exact ⟨hl, c2_amended_lost_persists trivFringe
    ⟨fun t b h => h, fun t b h => h, fun t b m p h => h,
      fun t b m p h => h⟩ E2 false false 1 1 1 1 s2 rfl hl⟩

/-- C3 counterexample: at an element with both apertures, the aperture
events of a full pass are rectangular, elliptical, rectangular,
elliptical; the claimed exit order (elliptical then rectangular) would
give a different event list. -/
theorem c3_counterexample :
    (passOneTr trivFringe E3 P6.zero).2.filter isApEv =
      [Ev.rectAp, Ev.ellipAp, Ev.rectAp, Ev.ellipAp] ∧
    ([Ev.rectAp, Ev.ellipAp, Ev.rectAp, Ev.ellipAp] : List Ev) ≠
      [Ev.rectAp, Ev.ellipAp, Ev.ellipAp, Ev.rectAp] := by
  constructor
  · norm_num [passOneTr_eq, particlePass, pipelineBody, entranceSection,
      exitSection, step, stT1, stR1, stRect, stEllip, stFringeEnt,
      stFringeExit, stT2, stR2, integrateSlices, sliceOnce, fastdrift,
      strthinkick, fieldPoly, cmulD, cpowD, checkiflostRectangularAp,
      checkiflostEllipticalAp, E3, P6.zero, trivFringe, DRIFT1, DRIFT2,
      KICK1, KICK2, isApEv]
  · simp

/-- C3 amended: whenever both aperture parameter vectors are present and
the particle is processed, the checks run as rectangular then elliptical
at the entrance AND rectangular then elliptical at the exit (the exit
order is not reversed). -/
theorem c3_order_rect_then_ellip (fr : FringeModels) (E : Elem) (s : P6)
    (hR : E.RApertures.isSome = true) (hE : E.EApertures.isSome = true)
    (hs : s.x.isNaN = false) :
    (passOneTr fr E s).2.filter isApEv =
      [Ev.rectAp, Ev.ellipAp, Ev.rectAp, Ev.ellipAp] := by
  rw [passOneTr_eq]
  unfold particlePass
  rw [if_neg (by simp [hs])]
  unfold pipelineBody entranceSection exitSection
  simp only [step_snd, step_fst, stT1_snd, stR1_snd, stRect_snd, stEllip_snd,
    stFringeEnt_snd, stFringeExit_snd, stR2_snd, stT2_snd]
  have hz : ∀ t : P6, ((integrateSlices E.PolynomA E.PolynomB E.MaxOrder
      (E.Length / (E.NumIntSteps : ℚ) * DRIFT1)
      (E.Length / (E.NumIntSteps : ℚ) * DRIFT2)
      (E.Length / (E.NumIntSteps : ℚ) * KICK1)
      (E.Length / (E.NumIntSteps : ℚ) * KICK2) E.NumIntSteps t).2).filter
        isApEv = [] := by
    intro t
    rw [List.filter_eq_nil_iff]
    intro e he
    rcases integrateSlices_events _ _ _ _ _ _ _ _ _ _ he with
      ⟨d, rfl⟩ | rfl | rfl <;> simp [isApEv]
  simp [List.filter_append, filter_ite_list, hz, hR, hE, isApEv]

/-- Witness for the amended C3 at the concrete element E3. -/
theorem c3_order_rect_then_ellip_witness :
    (passOneTr trivFringe E3 P6.zero).2.filter isApEv =
      [Ev.rectAp, Ev.ellipAp, Ev.rectAp, Ev.ellipAp] :=
  c3_order_rect_then_ellip trivFringe E3 P6.zero rfl rfl rfl

/-- C7 counterexample: evaluated in binary64 arithmetic on the literal
constants of the source, 2 KICK1 + 2 KICK2 is -0.702414..., not 1: the
claimed kick identity is false. -/
theorem c7_counterexample :
    fl64 (fl64 (2 * fl64 KICK1) + fl64 (2 * fl64 KICK2)) ≠ 1 := by
  have h1 : (2 : ℚ) * fl64 KICK1 = 6085296206209847 / 2251799813685248 := by
    rw [fl64_KICK1]; norm_num
  have h2 : (2 : ℚ) * fl64 KICK2 = -(3833496392524599 / 1125899906842624) := by
    rw [fl64_KICK2]; norm_num
  rw [h1, h2, fl64_fix_q51, fl64_fix_q50neg]
  have h3 : (6085296206209847 / 2251799813685248 : ℚ) +
      -(3833496392524599 / 1125899906842624) =
      -(1581696578839351 / 2251799813685248) := by norm_num
  rw [h3, fl64_fix_sum]
  norm_num

/-- C7 amended: in binary64 arithmetic on the literal constants,
2 DRIFT1 + 2 DRIFT2 equals exactly 1 and 2 KICK1 + KICK2 equals exactly 1
(each slice applies the kicks in the pattern K1, K2, K1, so it is KICK2,
not 2 KICK2, that enters the per-slice identity). -/
theorem c7_coefficient_identity :
    fl64 (fl64 (2 * fl64 DRIFT1) + fl64 (2 * fl64 DRIFT2)) = 1 ∧
    fl64 (fl64 (2 * fl64 KICK1) + fl64 KICK2) = 1 ∧
    ∀ (A B : List ℚ) (mo : ℕ) (L1 L2 K1 K2 : ℚ) (s : P6),
      (sliceOnce A B mo L1 L2 K1 K2 s).2.filter isKickEv =
        [Ev.kick K1, Ev.kick K2, Ev.kick K1] := by
  refine ⟨?_, ?_, fun A B mo L1 L2 K1 K2 s => rfl⟩
  · have h1 : (2 : ℚ) * fl64 DRIFT1 = 6085296206209847 / 4503599627370496 := by
      rw [fl64_DRIFT1]; norm_num
    have h2 : (2 : ℚ) * fl64 DRIFT2 =
        -(1581696578839351 / 4503599627370496) := by
      rw [fl64_DRIFT2]; norm_num
    rw [h1, h2, fl64_fix_q52, fl64_fix_q52neg]
    have h3 : (6085296206209847 / 4503599627370496 : ℚ) +
        -(1581696578839351 / 4503599627370496) = 1 := by norm_num
    rw [h3, fl64_one]
  · have h1 : (2 : ℚ) * fl64 KICK1 = 6085296206209847 / 2251799813685248 := by
      rw [fl64_KICK1]; norm_num
    rw [h1, fl64_fix_q51, fl64_KICK2]
    have h3 : (6085296206209847 / 2251799813685248 : ℚ) +
        -(3833496392524599 / 2251799813685248) = 1 := by norm_num
    rw [h3, fl64_one]

/-- C10: for every processed particle, the B[1] read happens exactly once
per side with a nonzero fringe mode flag (regardless of MaxOrder and of
PolynomA), and a fringe correction event occurs on a side exactly when
that side mode flag is nonzero AND B[1] is nonzero. -/
theorem c10_fringe_reads_B1 (fr : FringeModels) (E : Elem) (s : P6)
    (hs : s.x.isNaN = false) :
    countEv Ev.readB1 (passOneTr fr E s).2 =
      (if E.FringeQuadEntrance = 0 then 0 else 1) +
        (if E.FringeQuadExit = 0 then 0 else 1) ∧
    ((Ev.fringeLinEnt ∈ (passOneTr fr E s).2 ∨
        Ev.fringeHardEnt ∈ (passOneTr fr E s).2) ↔
      E.FringeQuadEntrance ≠ 0 ∧ E.PolynomB.getD 1 0 ≠ 0) ∧
    ((Ev.fringeLinExit ∈ (passOneTr fr E s).2 ∨
        Ev.fringeHardExit ∈ (passOneTr fr E s).2) ↔
      E.FringeQuadExit ≠ 0 ∧ E.PolynomB.getD 1 0 ≠ 0) := by
  rw [passOneTr_eq]
  unfold particlePass
  rw [if_neg (by simp [hs])]
  unfold pipelineBody entranceSection exitSection
  simp only [step_snd, step_fst, stT1_snd, stR1_snd, stRect_snd, stEllip_snd,
    stFringeEnt_snd, stFringeExit_snd, stR2_snd, stT2_snd]
  have hz : ∀ t : P6, countEv Ev.readB1
      (integrateSlices E.PolynomA E.PolynomB E.MaxOrder
        (E.Length / (E.NumIntSteps : ℚ) * DRIFT1)
        (E.Length / (E.NumIntSteps : ℚ) * DRIFT2)
        (E.Length / (E.NumIntSteps : ℚ) * KICK1)
        (E.Length / (E.NumIntSteps : ℚ) * KICK2) E.NumIntSteps t).2 = 0 :=
    fun t => countEv_eq_zero_of_not_mem
      (not_mem_integrateSlices _ _ _ _ _ _ _ _ _ (by simp) (by simp))
  have hle : ∀ t : P6, Ev.fringeLinEnt ∉
      (integrateSlices E.PolynomA E.PolynomB E.MaxOrder
        (E.Length / (E.NumIntSteps : ℚ) * DRIFT1)
        (E.Length / (E.NumIntSteps : ℚ) * DRIFT2)
        (E.Length / (E.NumIntSteps : ℚ) * KICK1)
        (E.Length / (E.NumIntSteps : ℚ) * KICK2) E.NumIntSteps t).2 :=
    fun t => not_mem_integrateSlices _ _ _ _ _ _ _ _ _ (by simp) (by simp)
  have hhe : ∀ t : P6, Ev.fringeHardEnt ∉
      (integrateSlices E.PolynomA E.PolynomB E.MaxOrder
        (E.Length / (E.NumIntSteps : ℚ) * DRIFT1)
        (E.Length / (E.NumIntSteps : ℚ) * DRIFT2)
        (E.Length / (E.NumIntSteps : ℚ) * KICK1)
        (E.Length / (E.NumIntSteps : ℚ) * KICK2) E.NumIntSteps t).2 :=
    fun t => not_mem_integrateSlices _ _ _ _ _ _ _ _ _ (by simp) (by simp)
  have hlx : ∀ t : P6, Ev.fringeLinExit ∉
      (integrateSlices E.PolynomA E.PolynomB E.MaxOrder
        (E.Length / (E.NumIntSteps : ℚ) * DRIFT1)
        (E.Length / (E.NumIntSteps : ℚ) * DRIFT2)
        (E.Length / (E.NumIntSteps : ℚ) * KICK1)
        (E.Length / (E.NumIntSteps : ℚ) * KICK2) E.NumIntSteps t).2 :=
    fun t => not_mem_integrateSlices _ _ _ _ _ _ _ _ _ (by simp) (by simp)
  have hhx : ∀ t : P6, Ev.fringeHardExit ∉
      (integrateSlices E.PolynomA E.PolynomB E.MaxOrder
        (E.Length / (E.NumIntSteps : ℚ) * DRIFT1)
        (E.Length / (E.NumIntSteps : ℚ) * DRIFT2)
        (E.Length / (E.NumIntSteps : ℚ) * KICK1)
        (E.Length / (E.NumIntSteps : ℚ) * KICK2) E.NumIntSteps t).2 :=
    fun t => not_mem_integrateSlices _ _ _ _ _ _ _ _ _ (by simp) (by simp)
  refine ⟨?_, ?_, ?_⟩
  · simp only [countEv_append, countEv_ite, hz]
    by_cases h1 : E.FringeQuadEntrance = 0 <;>
      by_cases h2 : E.FringeQuadExit = 0 <;>
      by_cases h3 : E.PolynomB[1]?.getD 0 = 0 <;>
      simp [h1, h2, h3, countEv_cons]
  · by_cases h1 : E.FringeQuadEntrance = 0 <;>
      by_cases h3 : E.PolynomB[1]?.getD 0 = 0 <;>
      cases hu : (E.fringeIntM0.isSome && E.fringeIntP0.isSome &&
        decide (E.FringeQuadEntrance = 2)) <;>
      simp [mem_ite_list, h1, h3, hu, hle, hhe]
  · by_cases h2 : E.FringeQuadExit = 0 <;>
      by_cases h3 : E.PolynomB[1]?.getD 0 = 0 <;>
      cases hu : (E.fringeIntM0.isSome && E.fringeIntP0.isSome &&
        decide (E.FringeQuadExit = 2)) <;>
      simp [mem_ite_list, h2, h3, hu, hlx, hhx]

/-- Witness for C10: at E1 (both modes nonzero) a processed particle
yields exactly two B[1] reads. -/
theorem c10_fringe_reads_B1_witness :
    countEv Ev.readB1 (passOneTr trivFringe E1 P6.zero).2 = 2 := by
  have h := (c10_fringe_reads_B1 trivFringe E1 P6.zero rfl).1
  norm_num [E1] at h
  exact h

end AT
